import Mathlib

/-!
Shallow embedding of the deploy service (`main.go`) of walker84837/vps-deploy-service.

Paths are modelled as `String`s over '/'-separated components, mirroring Go's
`path/filepath` on Unix.  Bytes are modelled as `List Nat`.  Filesystem state is
an association list from absolute path to node; OS calls are explicit state
passing, and the network / crypto library calls are oracles supplied in an
environment record.
-/

deriving instance DecidableEq for Except

namespace VpsDeploy

/-- Bytes of a file, abstracted as a list of naturals. -/
abbrev Bytes := List Nat

/-! ## Go `path/filepath` (Unix), as used by `main.go` -/

/-- Model of Go `strings.HasPrefix s pre` (byte prefix; here char prefix). -/
def strIsPre (pre s : String) : Bool := pre.toList.isPrefixOf s.toList

/-- Model of Go `strings.HasSuffix s suf`. -/
def strIsSuf (suf s : String) : Bool := suf.toList.isSuffixOf s.toList

/-- Split a character list at '/' into components (Go path components,
including empty components produced by leading, trailing or doubled slashes). -/
def splitSlash : List Char → List Char → List String
  | [], acc => [String.mk acc.reverse]
  | c :: rest, acc =>
    if c = '/' then String.mk acc.reverse :: splitSlash rest []
    else splitSlash rest (c :: acc)

/-- Components of a path string. -/
def pathComps (p : String) : List String := splitSlash p.toList []

/-- One step of Go `path.Clean`'s element processing: skip empty and "."
components; on ".." pop a component (or keep a leading ".." when not rooted);
otherwise push the component.  `stack` holds the output components in reverse. -/
def cleanPush (rooted : Bool) (stack : List String) (c : String) : List String :=
  if c = "" ∨ c = "." then stack
  else if c = ".." then
    match stack with
    | [] => if rooted then [] else [".."]
    | top :: rest => if top = ".." then c :: top :: rest else rest
  else c :: stack

/-- Join components with '/'. -/
def joinComps : List String → String
  | [] => ""
  | [c] => c
  | c :: rest => c ++ "/" ++ joinComps rest

/-- Is the path rooted (Go: `path[0] == '/'`)? -/
def isRooted (p : String) : Bool := p.toList.head? = some '/'

/-- Model of Go `filepath.Clean` on Unix: shortest lexically equivalent path
(empty path becomes ".", "." and ".." elements resolved, slashes normalised).
A rooted path keeps its leading '/'; a relative path that cleans to nothing
becomes ".". -/
def clean (p : String) : String :=
  if p = "" then "."
  else if isRooted p then
    "/" ++ joinComps (((pathComps p).foldl (cleanPush true) []).reverse)
  else
    let body := joinComps (((pathComps p).foldl (cleanPush false) []).reverse)
    if body = "" then "." else body

/-- Model of Go `filepath.Join a b` (two-argument form): clean of the
"/"-joined non-empty elements. -/
def filepathJoin (a b : String) : String :=
  if a ≠ "" then clean (a ++ "/" ++ b)
  else if b ≠ "" then clean b
  else ""

/-- Model of Go `filepath.Abs` on Unix with working directory `wd`: an
absolute path is cleaned, a relative one is joined onto `wd`. -/
def filepathAbs (wd p : String) : String :=
  if isRooted p then clean p else filepathJoin wd p

/-- Model of Go `filepath.Dir`: everything up to and including the final
slash, cleaned ("." when there is no slash). -/
def filepathDir (p : String) : String :=
  clean (String.mk ((p.toList.reverse.dropWhile (fun c => ¬ c = '/')).reverse))

/-! ## Path Resolver (`computeFinalPath`, main.go:148-164) -/

/-- The area table `areas.json`, alias → base path, as an association list. -/
abbrev AreaMap := List (String × String)

/-- Embedding of `computeFinalPath(area, project)` (main.go:148-164): look the
area up, join the project onto the base, take absolute forms of candidate and
base, and accept when the candidate has the base as a string prefix
(`strings.HasPrefix`). -/
def computeFinalPath (areas : AreaMap) (wd area project : String) : Except String String :=
  match areas.lookup area with
  | none => .error ("unknown area alias: " ++ area)
  | some base =>
    let dest := filepathJoin base project
    let absDest := filepathAbs wd dest
    let absBase := filepathAbs wd base
    if strIsPre absBase absDest then .ok absDest
    else .error "project path escapes area base"

/-! ## Spec-side path predicates (from the spec's words, for comparison) -/

/-- Modelled from the spec: "equal to or a descendant of the canonical base" —
`p` is `base` itself or lies strictly below `base` (has `base ++ "/"` as a
prefix). -/
def isWithin (p base : String) : Bool :=
  p = base || strIsPre (base ++ "/") p

/-- Modelled from the spec: "a direct child of the area's base" — `p` is
`base ++ "/" ++ c` for a single non-empty component `c` containing no
separator. -/
def isDirectChild (p base : String) : Bool :=
  strIsPre (base ++ "/") p &&
    (let rest := p.toList.drop (base.toList.length + 1)
     !rest.isEmpty && !rest.contains '/')

/-! ## Filesystem model

An association list from absolute path to node.  `List.lookup` finds the
first binding, so updates prepend; removal filters every binding of the key. -/

/-- A filesystem node: a regular file with contents, or a directory. -/
inductive FNode where
  | file (content : Bytes)
  | dir
  deriving DecidableEq, Repr

/-- A filesystem: association list from path to node. -/
abbrev FS := List (String × FNode)

/-- Node stored at a path, if any. -/
def fsLookup (fs : FS) (p : String) : Option FNode := fs.lookup p

/-- Set (insert or overwrite) the node at a path. -/
def fsSet (fs : FS) (p : String) (n : FNode) : FS := (p, n) :: fs

/-- Model of a file read (`os.ReadFile` / opening for reading). -/
def fsRead (fs : FS) (p : String) : Except String Bytes :=
  match fsLookup fs p with
  | some (.file c) => .ok c
  | some .dir => .error "is a directory"
  | none => .error "no such file or directory"

/-- Model of `os.Create`: truncates or creates a regular file; fails when the
path is an existing directory (EISDIR).  Failure of a missing parent
directory is outside the model. -/
def fsCreate (fs : FS) (p : String) (c : Bytes) : Except String FS :=
  match fsLookup fs p with
  | some .dir => .error "is a directory"
  | _ => .ok (fsSet fs p (.file c))

/-- Does the path have any stored descendant entry? -/
def fsHasChild (fs : FS) (p : String) : Bool :=
  fs.any (fun kv => strIsPre (p ++ "/") kv.1)

/-- Model of `os.RemoveAll`: drop the path and all its descendants; nil error
even when the path does not exist (permission errors are outside the model). -/
def fsRemoveAll (fs : FS) (p : String) : FS :=
  fs.filter (fun kv => ¬ (kv.1 = p ∨ strIsPre (p ++ "/") kv.1 = true))

/-- Model of `os.MkdirAll`: ok (and a no-op) when a directory already exists
at the path, error when a regular file is in the way; otherwise records a
directory at the path (creation of missing parents is kept implicit). -/
def fsMkdirAll (fs : FS) (p : String) : Except String FS :=
  match fsLookup fs p with
  | some (.file _) => .error "not a directory"
  | some .dir => .ok fs
  | none => .ok (fsSet fs p .dir)

/-- Model of `os.Remove` with the error ignored (the handler's deferred
`os.Remove`): removes a regular file or an empty directory, leaves anything
else unchanged. -/
def fsRemove (fs : FS) (p : String) : FS :=
  match fsLookup fs p with
  | some (.file _) => fs.filter (fun kv => ¬ kv.1 = p)
  | some .dir => if fsHasChild fs p then fs else fs.filter (fun kv => ¬ kv.1 = p)
  | none => fs

/-! ## Archive data and environment oracles -/

/-- An entry of the fetched zip container, in stored order. -/
structure ZipEntry where
  name : String
  content : Bytes
  deriving DecidableEq, Repr

/-- A parsed tar header plus entry contents.  `typeflag` is the raw tar type
byte: Go matches `tar.TypeDir` ('5' = 53) and `tar.TypeReg` ('0' = 48) and
skips everything else. -/
structure TarEntry where
  name : String
  typeflag : Nat
  content : Bytes
  deriving DecidableEq, Repr

/-- Tar type byte for directories (`tar.TypeDir`). -/
def tarTypeDir : Nat := 53

/-- Tar type byte for regular files (`tar.TypeReg`). -/
def tarTypeReg : Nat := 48

/-- Observable effects of one request, recorded in execution order. -/
inductive Op where
  | httpRequest (url : String) (auth : String)
  | httpGet (url : String)
  | createFile (path : String)
  | writeFile (path : String)
  | readFile (path : String)
  | verifyData (data : Bytes)
  | removeAllDir (path : String)
  | mkdirAllDir (path : String)
  | openZip (path : String)
  | remove (path : String)
  deriving DecidableEq, Repr

/-- Environment oracles for one request: the network's answers and the
behaviour of the external zip / base64 / minisign libraries on the byte
strings of the run. -/
structure DeployEnv where
  /-- Verdict of `http.NewRequest("GET", url, nil)` on the built URL: `some e`
  when the library rejects the URL locally (`url.Parse` fails, e.g. on ASCII
  control characters) and no request is issued, `none` when the request value
  is created successfully. -/
  newRequestErr : String → Option String
  /-- Result of `client.Do(req)`: network error, or status code, `Location`
  header ("" when absent) and response body. -/
  doResult : Except String (Nat × String × Bytes)
  /-- Result of the follow-up `http.Get(redirectURL)`: error or body. -/
  redirectResult : Except String Bytes
  /-- Does the `io.Copy` of the response body into the scratch file succeed? -/
  copyOk : Bool
  /-- `os.TempDir()`. -/
  tempDir : String
  /-- `zip.OpenReader` on a file's bytes: its entry list, or a parse failure. -/
  parseZip : Bytes → Option (List ZipEntry)
  /-- `base64.StdEncoding.DecodeString`. -/
  b64Decode : String → Option Bytes
  /-- `minisign.NewPublicKey` on the key file's bytes. -/
  parsePublicKey : Bytes → Option Bytes
  /-- `minisign.DecodeSignature` on the decoded signature bytes. -/
  decodeSig : Bytes → Option Bytes
  /-- `publicKey.Verify(data, sig)`: `(valid, err)` as `Except` of `Bool`. -/
  minisignVerify : Bytes → Bytes → Bytes → Except String Bool

/-! ## Container Unwrapper (`extractTarGzFromZip`, main.go:115-145) -/

/-- Loop body of `extractTarGzFromZip` (main.go:122-142): scan entries in
stored order; on the first name ending in ".tar.gz", create the file at
`destPath` with that entry's bytes and stop; error when no entry matches. -/
def extractLoop (fs : FS) (destPath : String) : List ZipEntry → Except String FS × List Op
  | [] => (.error ".tar.gz not found in ZIP", [])
  | e :: rest =>
    if strIsSuf ".tar.gz" e.name then
      match fsCreate fs destPath e.content with
      | .error err => (.error err, [.createFile destPath])
      | .ok fs' => (.ok fs', [.createFile destPath])
    else extractLoop fs destPath rest

/-- Embedding of `extractTarGzFromZip(zipPath, destPath)` (main.go:115-145):
open the zip at `zipPath` and run the scan loop.  Note the Go function writes
the raw `.tar.gz` bytes to `destPath`; it never unpacks the tarball. -/
def extractTarGzFromZip (env : DeployEnv) (fs : FS) (zipPath destPath : String) :
    Except String FS × List Op :=
  match fsRead fs zipPath with
  | .error e => (.error e, [.openZip zipPath])
  | .ok bs =>
    match env.parseZip bs with
    | none => (.error "zip: not a valid zip file", [.openZip zipPath])
    | some entries =>
      let r := extractLoop fs destPath entries
      (r.1, .openZip zipPath :: r.2)

/-- Modelled from the spec: the Container Unwrapper's selection policy, "the
first entry whose name ends with the compressed-tarball suffix". -/
def firstTarGz (entries : List ZipEntry) : Option ZipEntry :=
  entries.find? (fun e => strIsSuf ".tar.gz" e.name)

/-! ## Signature Verifier (`verifySignature`, main.go:236-271) -/

/-- Embedding of `verifySignature(filePath, base64Sig, pubKey)`
(main.go:236-271): read the file, base64-decode the signature, parse the
public key, decode the minisign signature, and verify over the file's bytes. -/
def verifySignature (env : DeployEnv) (fs : FS) (filePath base64Sig : String)
    (pubKey : Bytes) : Except String Unit × List Op :=
  match fsRead fs filePath with
  | .error e => (.error e, [.readFile filePath])
  | .ok data =>
    match env.b64Decode base64Sig with
    | none => (.error "invalid base64 signature", [.readFile filePath])
    | some sigBytes =>
      match env.parsePublicKey pubKey with
      | none => (.error "invalid public key", [.readFile filePath])
      | some pk =>
        match env.decodeSig sigBytes with
        | none => (.error "invalid signature format", [.readFile filePath])
        | some sig =>
          match env.minisignVerify pk data sig with
          | .error e => (.error ("signature verification error: " ++ e),
              [.readFile filePath, .verifyData data])
          | .ok false => (.error "signature verification failed",
              [.readFile filePath, .verifyData data])
          | .ok true => (.ok (), [.readFile filePath, .verifyData data])

/-! ## Artifact Fetcher (`downloadArtifact`, main.go:168-233) -/

/-- Embedding of `downloadArtifact(owner, repo, artifactID, token, project)`
(main.go:168-233): validate token/owner/repo, build the API URL with
`artifactID` interpolated verbatim, create the request value with
`http.NewRequest` (which can fail locally on an invalid URL, main.go:182-185,
issuing no request), issue the authenticated GET, follow one 302 redirect
with a plain GET, then create `TempDir/<project>.zip` and copy the body into
it.  On a copy failure the created scratch file is not removed. -/
def downloadArtifact (env : DeployEnv) (fs : FS)
    (owner repo artifactID token project : String) :
    Except String String × FS × List Op :=
  if token = "" then (.error "missing GitHub token", fs, [])
  else if owner = "" ∨ repo = "" then (.error "missing owner or repo", fs, [])
  else
    let url := "https://api.github.com/repos/" ++ owner ++ "/" ++ repo ++
      "/actions/artifacts/" ++ artifactID ++ "/zip"
    match env.newRequestErr url with
    | some e => (.error ("creating request failed: " ++ e), fs, [])
    | none =>
    let op₀ := Op.httpRequest url ("Bearer " ++ token)
    match env.doResult with
    | .error e => (.error ("http request failed: " ++ e), fs, [op₀])
    | .ok (status, location, body) =>
      if status ≠ 200 ∧ status ≠ 302 then
        (.error "failed to download artifact: bad status", fs, [op₀])
      else
        let afterRedirect : Except String (Bytes × List Op) :=
          if status = 302 then
            if location = "" then .error "artifact redirect location missing"
            else
              match env.redirectResult with
              | .error e => .error ("failed to download redirected artifact: " ++ e)
              | .ok b₂ => .ok (b₂, [op₀, .httpGet location])
          else .ok (body, [op₀])
        match afterRedirect with
        | .error e => (.error e, fs, if status = 302 ∧ location ≠ "" then [op₀, .httpGet location] else [op₀])
        | .ok (resBody, ops) =>
          let dest := filepathJoin env.tempDir (project ++ ".zip")
          match fsCreate fs dest [] with
          | .error e => (.error ("failed to create file: " ++ e), fs, ops ++ [.createFile dest])
          | .ok fs₁ =>
            if env.copyOk then
              (.ok dest, fsSet fs₁ dest (.file resBody), ops ++ [.createFile dest, .writeFile dest])
            else
              (.error "failed to write file", fs₁, ops ++ [.createFile dest, .writeFile dest])

/-! ## Request Handler (`deployHandler`, main.go:53-112) -/

/-- A parsed webhook payload (main.go:25-33). -/
structure Payload where
  area : String
  project : String
  owner : String
  repo : String
  artifactID : String
  githubToken : String
  signature : String
  deriving DecidableEq, Repr

/-- An HTTP response of the handler. -/
structure HttpResp where
  status : Nat
  body : String
  deriving DecidableEq, Repr

/-- Embedding of `deployHandler` (main.go:53-112): method and JSON checks,
`computeFinalPath`, `downloadArtifact` (with `defer os.Remove(artifactFile)`
registered only after its success), read of `minisign.pub`, `verifySignature`
on the artifact (zip) file, `os.RemoveAll(dest)`, `os.MkdirAll(dest)`,
`extractTarGzFromZip(artifactFile, dest)`, then 200 "success".  The deferred
remove of the scratch file runs on each return past its registration. -/
def deployHandler (areas : AreaMap) (wd : String) (env : DeployEnv)
    (method : String) (body? : Option Payload) (fs : FS) :
    HttpResp × FS × List Op :=
  if method ≠ "POST" then (⟨405, "only POST allowed"⟩, fs, [])
  else
    match body? with
    | none => (⟨400, "invalid JSON"⟩, fs, [])
    | some p =>
      match computeFinalPath areas wd p.area p.project with
      | .error e => (⟨400, e⟩, fs, [])
      | .ok dest =>
        match downloadArtifact env fs p.owner p.repo p.artifactID p.githubToken p.project with
        | (.error e, fs₁, ops₁) =>
          (⟨500, "failed to download artifact: " ++ e⟩, fs₁, ops₁)
        | (.ok artifactFile, fs₁, ops₁) =>
          let finish := fun (resp : HttpResp) (fs' : FS) (ops' : List Op) =>
            (resp, fsRemove fs' artifactFile, ops' ++ [Op.remove artifactFile])
          match fsRead fs₁ "minisign.pub" with
          | .error e =>
            finish ⟨500, "missing public key: " ++ e⟩ fs₁
              (ops₁ ++ [.readFile "minisign.pub"])
          | .ok pubKeyBytes =>
            let ops₂ := ops₁ ++ [Op.readFile "minisign.pub"]
            match verifySignature env fs₁ artifactFile p.signature pubKeyBytes with
            | (.error e, opsV) =>
              finish ⟨403, "signature verification failed: " ++ e⟩ fs₁ (ops₂ ++ opsV)
            | (.ok _, opsV) =>
              let ops₃ := ops₂ ++ opsV
              let fs₂ := fsRemoveAll fs₁ dest
              let ops₄ := ops₃ ++ [Op.removeAllDir dest]
              match fsMkdirAll fs₂ dest with
              | .error e =>
                finish ⟨500, "failed to create project folder: " ++ e⟩ fs₂ ops₄
              | .ok fs₃ =>
                let ops₅ := ops₄ ++ [Op.mkdirAllDir dest]
                match extractTarGzFromZip env fs₃ artifactFile dest with
                | (.error e, opsE) =>
                  finish ⟨500, "failed to extract artifact: " ++ e⟩ fs₃ (ops₅ ++ opsE)
                | (.ok fs₄, opsE) =>
                  finish ⟨200, "success"⟩ fs₄ (ops₅ ++ opsE)

/-! ## Deploy Applier tar extraction (`extractTarGz`, main.go:274-321)

This function exists in the source but is never called by `deployHandler`. -/

/-- Embedding of the entry loop of `extractTarGz(file, dest)`
(main.go:287-319) over the parsed tar entries: directory entries run
`MkdirAll`, regular-file entries run `MkdirAll` on the parent then create the
file with the entry's content, every other type byte is skipped. -/
def extractTarGz (dest : String) (fs : FS) : List TarEntry → Except String FS
  | [] => .ok fs
  | hdr :: rest =>
    let target := filepathJoin dest hdr.name
    if hdr.typeflag = tarTypeDir then
      match fsMkdirAll fs target with
      | .error e => .error e
      | .ok fs' => extractTarGz dest fs' rest
    else if hdr.typeflag = tarTypeReg then
      match fsMkdirAll fs (filepathDir target) with
      | .error e => .error e
      | .ok fs' =>
        match fsCreate fs' target hdr.content with
        | .error e => .error e
        | .ok fs'' => extractTarGz dest fs'' rest
    else extractTarGz dest fs rest

/-! ## Concrete scenario fixtures (spec §8, end-to-end scenarios) -/

/-- Area table of the spec's end-to-end scenarios. -/
def areas1 : AreaMap := [("repos", "/srv/repos")]

/-- Bytes of the tarball payload inside the artifact. -/
def tarBytes1 : Bytes := [1, 2, 3]

/-- Bytes of the fetched zip container (distinct from the payload bytes). -/
def zipBytes1 : Bytes := [9, 9]

/-- Initial filesystem: temp dir, area base, a previous deployment at
`/srv/repos/site`, and the configured public key file. -/
def fs1 : FS :=
  [("/tmp", .dir), ("/srv", .dir), ("/srv/repos", .dir),
   ("/srv/repos/site", .dir), ("/srv/repos/site/old.html", .file [7]),
   ("minisign.pub", .file [5])]

/-- Oracle for `http.NewRequest` used by the concrete scenarios, behaving as
Go's `net/url` does on this URL shape: a URL containing an ASCII control
character is rejected locally (so no request is issued); any other URL is
accepted. -/
def newRequestCtl (url : String) : Option String :=
  if url.toList.any (fun c => c.toNat < 32) then
    some "parse URL: net/url: invalid control character in URL"
  else none

/-- Environment of scenario 1: the download answers 200 with the zip bytes,
the zip contains exactly one entry `app.tar.gz` with the tarball bytes, and
the minisign oracle accepts precisely the bytes it is handed when they are
the zip container's bytes. -/
def env1 : DeployEnv where
  newRequestErr := newRequestCtl
  doResult := .ok (200, "", zipBytes1)
  redirectResult := .error "unused"
  copyOk := true
  tempDir := "/tmp"
  parseZip := fun bs => if bs == zipBytes1 then some [⟨"app.tar.gz", tarBytes1⟩] else none
  b64Decode := fun _ => some [11]
  parsePublicKey := fun _ => some [12]
  decodeSig := fun _ => some [13]
  minisignVerify := fun _ data _ => .ok (data == zipBytes1)

/-- Payload of the spec's end-to-end scenarios. -/
def payload1 : Payload :=
  ⟨"repos", "site", "o", "r", "42", "tok", "sig"⟩

/-- Scenario of claim C3: same environment but the zip holds no `.tar.gz`
entry at all. -/
def env3 : DeployEnv :=
  { env1 with parseZip := fun bs => if bs == zipBytes1 then some [⟨"readme.md", [4]⟩] else none }

/-- Scenario of claim C7's counterexample: the copy of the response body into
the scratch file fails after `os.Create` succeeded. -/
def env7 : DeployEnv := { env1 with copyOk := false }

/-! ## Helper lemmas on the path model -/

theorem mk_data (s : String) : String.mk s.data = s := rfl

theorem string_eq_of_data {a b : String} (h : a.data = b.data) : a = b := String.ext h

theorem data_ne_nil_of_ne_empty {s : String} (h : s ≠ "") : s.data ≠ [] :=
  fun hn => h (String.ext hn)

theorem append_str_data (a b : String) : (a ++ b).data = a.data ++ b.data := rfl

theorem splitSlash_append (ys : List Char) : ∀ (xs : List Char) (acc : List Char),
    splitSlash (xs ++ '/' :: ys) acc = splitSlash xs acc ++ splitSlash ys [] := by
  intro xs
  induction xs with
  | nil => intro acc; simp [splitSlash]
  | cons c rest ih =>
    intro acc
    by_cases hc : c = '/'
    · simp only [List.cons_append, splitSlash, hc, if_true, List.append_eq]
      rw [ih []]
    · simp only [List.cons_append, splitSlash, hc, if_false, List.append_eq]
      rw [ih (c :: acc)]

theorem splitSlash_no_slash : ∀ (l acc : List Char), l.contains '/' = false →
    splitSlash l acc = [String.mk (acc.reverse ++ l)] := by
  intro l
  induction l with
  | nil => intro acc _; simp [splitSlash]
  | cons c rest ih =>
    intro acc h
    simp only [List.contains_cons, Bool.or_eq_false_iff, beq_eq_false_iff_ne, ne_eq] at h
    have h1 : ¬ c = '/' := fun hc => h.1 (Eq.symm hc)
    rw [splitSlash, if_neg h1, ih (c :: acc) h.2]
    simp

theorem joinComps_concat : ∀ (l : List String) (c : String), l ≠ [] →
    joinComps (l ++ [c]) = joinComps l ++ "/" ++ c := by
  intro l
  induction l with
  | nil => intro c h; exact absurd rfl h
  | cons a l' ih =>
    intro c _
    cases l' with
    | nil => rfl
    | cons b l'' =>
      have h2 := ih c (List.cons_ne_nil b l'')
      show a ++ "/" ++ joinComps (b :: l'' ++ [c]) = a ++ "/" ++ joinComps (b :: l'') ++ "/" ++ c
      rw [List.cons_append] at h2 ⊢
      rw [h2]
      apply string_eq_of_data
      simp [append_str_data, List.append_assoc]

theorem strApp_ne_of_head_ne (pre e s : String)
    (h : pre.data.head? ≠ s.data.head?) (hp : pre ≠ "") : pre ++ e ≠ s := by
  intro heq
  apply h
  have hd : pre.data ++ e.data = s.data := by rw [← append_str_data, heq]
  have hnil : pre.data ≠ [] := data_ne_nil_of_ne_empty hp
  cases pd : pre.data with
  | nil => exact absurd pd hnil
  | cons c t =>
    rw [pd] at hd
    rw [← hd]
    rfl

theorem err_app_ne {α : Type} (pre e s : String)
    (h : pre.data.head? ≠ s.data.head?) (hp : pre ≠ "") :
    (Except.error (pre ++ e) : Except String α) ≠ .error s := by
  intro heq
  exact strApp_ne_of_head_ne pre e s h hp (by injection heq)

theorem toList_eq_data (s : String) : s.toList = s.data := rfl

theorem isRooted_data {p : String} (h : isRooted p = true) : ∃ t, p.data = '/' :: t := by
  simp only [isRooted, toList_eq_data, decide_eq_true_eq] at h
  cases pd : p.data with
  | nil => rw [pd] at h; exact absurd h (by simp)
  | cons c t =>
    rw [pd] at h
    have hc : c = '/' := by simpa using h
    subst hc
    exact ⟨t, rfl⟩

theorem app_sep_data (base project : String) :
    (base ++ "/" ++ project).data = base.data ++ '/' :: project.data := by
  simp only [append_str_data]
  rw [List.append_assoc]
  rfl

theorem ne_empty_of_rooted {base : String} (hroot : isRooted base = true) : base ≠ "" := by
  obtain ⟨t, hbd⟩ := isRooted_data hroot
  intro h
  rw [h] at hbd
  exact List.noConfusion hbd

theorem clean_append_single {base project : String}
    (hroot : isRooted base = true) (hbase : base ≠ "/") (hclean : clean base = base)
    (hp1 : project ≠ "") (hp2 : project.data.contains '/' = false)
    (hp3 : project ≠ ".") (hp4 : project ≠ "..") :
    clean (base ++ "/" ++ project) = base ++ "/" ++ project := by
  obtain ⟨t, hbd⟩ := isRooted_data hroot
  have hbne : base ≠ "" := ne_empty_of_rooted hroot
  have hDdata := app_sep_data base project
  have hDne : (base ++ "/" ++ project) ≠ "" := by
    intro h
    have hd := congrArg String.data h
    rw [hDdata, hbd] at hd
    exact absurd hd (by simp)
  have hDroot : isRooted (base ++ "/" ++ project) = true := by
    simp only [isRooted, toList_eq_data, hDdata, hbd, decide_eq_true_eq]
    rfl
  have hcomps : pathComps (base ++ "/" ++ project) = pathComps base ++ [project] := by
    simp only [pathComps, toList_eq_data, hDdata]
    rw [splitSlash_append project.data base.data [], splitSlash_no_slash project.data [] hp2]
    simp [pathComps, toList_eq_data, mk_data]
  have hfold : (pathComps (base ++ "/" ++ project)).foldl (cleanPush true) []
      = project :: (pathComps base).foldl (cleanPush true) [] := by
    rw [hcomps, List.foldl_append]
    show cleanPush true ((pathComps base).foldl (cleanPush true) []) project = _
    unfold cleanPush
    rw [if_neg (by intro h; cases h with | inl h => exact hp1 h | inr h => exact hp3 h),
      if_neg hp4]
  have hbase_struct : "/" ++ joinComps (((pathComps base).foldl (cleanPush true) []).reverse)
      = base := by
    conv_rhs => rw [← hclean]
    unfold clean
    rw [if_neg hbne, if_pos hroot]
  have hSrev : ((pathComps base).foldl (cleanPush true) []).reverse ≠ [] := by
    intro h
    apply hbase
    rw [← hbase_struct, h]
    exact string_eq_of_data rfl
  unfold clean
  rw [if_neg hDne, if_pos hDroot, hfold, List.reverse_cons,
    joinComps_concat _ project hSrev]
  conv_rhs => rw [← hbase_struct]
  apply string_eq_of_data
  simp [append_str_data, List.append_assoc]

/-! ## Claim theorems -/

/-- C1: the claim says every path `computeFinalPath` returns is equal to or a
descendant of the area's base.  The code checks containment with
`strings.HasPrefix` on the raw absolute strings, so for the area table
`{"repos": "/srv/repos"}` and `project = "../repos-evil"` it returns
`/srv/repos-evil`, a sibling of the base that merely shares its string
prefix and is not within the base — contradicting both the claim and the
source's own "prevent escaping the base folder" comment. -/
theorem C1_sibling_path_escapes_base :
    computeFinalPath areas1 "/" "repos" "../repos-evil" = .ok "/srv/repos-evil"
      ∧ isWithin "/srv/repos-evil" "/srv/repos" = false := by
  decide

/-- C2: the claim says the signature is verified over the extracted tarball
bytes and that the target directory is only modified once a signature over
the tarball bytes was accepted.  In the run below the only verification the
handler performs is over `zipBytes1`, the bytes of the fetched zip container,
which differ from the tarball payload `tarBytes1`; the verifier (which
accepts exactly the container bytes) lets the handler proceed to destroy the
previous deployment at the target directory. -/
theorem C2_verifies_zip_container_not_tarball :
    (deployHandler areas1 "/" env1 "POST" (some payload1) fs1).2.2.filter
        (fun op => match op with | .verifyData _ => true | _ => false)
        = [.verifyData zipBytes1]
      ∧ zipBytes1 ≠ tarBytes1
      ∧ fsLookup fs1 "/srv/repos/site/old.html" = some (.file [7])
      ∧ fsLookup (deployHandler areas1 "/" env1 "POST" (some payload1) fs1).2.1
          "/srv/repos/site/old.html" = none := by
  decide

/-- C3: the claim says any failure before the Deploy Applier — including
`PayloadNotFound` in the Container Unwrapper — leaves the target directory
untouched.  In the code the unwrap runs after `os.RemoveAll(dest)`: with a
zip holding no `.tar.gz` entry the handler fails with the payload-not-found
error, yet the previous deployment at `/srv/repos/site` is already gone. -/
theorem C3_unwrap_failure_after_target_wipe :
    (deployHandler areas1 "/" env3 "POST" (some payload1) fs1).1
        = ⟨500, "failed to extract artifact: .tar.gz not found in ZIP"⟩
      ∧ fsLookup fs1 "/srv/repos/site/old.html" = some (.file [7])
      ∧ fsLookup (deployHandler areas1 "/" env3 "POST" (some payload1) fs1).2.1
          "/srv/repos/site/old.html" = none := by
  decide

/-- C4: the claim says a fully valid request yields 200 "success" with the
tarball's files unpacked at the target.  The handler instead hands the
target *directory* path to `extractTarGzFromZip` as the output *file* path:
`os.Create` on the freshly created directory fails, the handler answers 500,
and the target directory is left empty — the tar entries are never unpacked
(`extractTarGz` is never called). -/
theorem C4_valid_request_fails_extraction :
    (deployHandler areas1 "/" env1 "POST" (some payload1) fs1).1
        = ⟨500, "failed to extract artifact: is a directory"⟩
      ∧ (deployHandler areas1 "/" env1 "POST" (some payload1) fs1).2.2.contains
          (.createFile "/srv/repos/site") = true
      ∧ fsLookup (deployHandler areas1 "/" env1 "POST" (some payload1) fs1).2.1
          "/srv/repos/site" = some .dir
      ∧ fsLookup (deployHandler areas1 "/" env1 "POST" (some payload1) fs1).2.1
          "/srv/repos/site/old.html" = none := by
  decide

/-- C5: the claim says the stage order is resolve → fetch → unwrap → verify →
apply, with directory removal only after unwrapping and verification.  The
recorded effect trace of the run shows the code's order: fetch, then read of
the key and verification (`verifyData` over the zip bytes), then
`RemoveAll`/`MkdirAll` on the target, and only then the zip unwrap
(`openZip`) — the unwrap comes last and the removal precedes it. -/
theorem C5_pipeline_order_of_code :
    (deployHandler areas1 "/" env1 "POST" (some payload1) fs1).2.2
      = [.httpRequest "https://api.github.com/repos/o/r/actions/artifacts/42/zip" "Bearer tok",
         .createFile "/tmp/site.zip", .writeFile "/tmp/site.zip",
         .readFile "minisign.pub", .readFile "/tmp/site.zip",
         .verifyData zipBytes1,
         .removeAllDir "/srv/repos/site", .mkdirAllDir "/srv/repos/site",
         .openZip "/tmp/site.zip", .createFile "/srv/repos/site",
         .remove "/tmp/site.zip"] := by
  decide

/-- C6: the Container Unwrapper scans the zip's entries in stored order and
acts on the first entry whose name ends with ".tar.gz", writing that entry's
bytes to the destination file; with no matching entry it fails with the
payload-not-found error.  The scan loop refines the spec-side
first-match selection `firstTarGz` for every filesystem, destination and
entry list. -/
theorem C6_first_targz_in_stored_order_wins (fs : FS) (destPath : String)
    (entries : List ZipEntry) :
    extractLoop fs destPath entries =
      match firstTarGz entries with
      | none => (.error ".tar.gz not found in ZIP", [])
      | some e =>
        match fsCreate fs destPath e.content with
        | .error err => (.error err, [.createFile destPath])
        | .ok fs' => (.ok fs', [.createFile destPath]) := by
  induction entries with
  | nil => rfl
  | cons e rest ih =>
    by_cases h : strIsSuf ".tar.gz" e.name
    · simp only [extractLoop, firstTarGz, List.find?_cons, h, if_true]
    · simp only [extractLoop, firstTarGz, List.find?_cons, h, if_false, Bool.false_eq_true]
      exact ih

/-- C8: tar extraction creates directories for directory entries and files
(with verbatim content) for regular entries, and silently skips every other
entry kind: deleting the non-directory non-regular entries from the archive
changes neither the extraction result nor any error — they have no effect on
the output, so no symlink or special file is ever materialised. -/
theorem C8_other_tar_entry_kinds_are_skipped (dest : String) (entries : List TarEntry) :
    ∀ fs : FS,
      extractTarGz dest fs
          (entries.filter fun e => e.typeflag == tarTypeDir || e.typeflag == tarTypeReg)
        = extractTarGz dest fs entries := by
  induction entries with
  | nil => intro fs; rfl
  | cons e rest ih =>
    intro fs
    by_cases hd : e.typeflag = tarTypeDir
    · rw [List.filter_cons_of_pos (by simp [hd])]
      show extractTarGz dest fs (e :: _) = _
      rw [extractTarGz, extractTarGz, if_pos hd, if_pos hd]
      cases fsMkdirAll fs (filepathJoin dest e.name) with
      | error _ => rfl
      | ok fs' => exact ih fs'
    · by_cases hr : e.typeflag = tarTypeReg
      · rw [List.filter_cons_of_pos (by simp [hr])]
        show extractTarGz dest fs (e :: _) = _
        rw [extractTarGz, extractTarGz, if_neg hd, if_neg hd, if_pos hr, if_pos hr]
        cases fsMkdirAll fs (filepathDir (filepathJoin dest e.name)) with
        | error _ => rfl
        | ok fs' =>
          dsimp only
          cases fsCreate fs' (filepathJoin dest e.name) e.content with
          | error _ => rfl
          | ok fs'' => exact ih fs''
      · rw [List.filter_cons_of_neg (by simp [hd, hr])]
        conv_rhs => rw [extractTarGz, if_neg hd, if_neg hr]
        exact ih fs

/-- C9 counterexample: the claim quantifies over every project value without
traversal sequences, but `project = "a/b"` (no `..` anywhere) resolves to a
deeper descendant, not a direct child, and `project = ""` resolves to the
base directory itself. -/
theorem C9_multi_component_not_direct_child :
    computeFinalPath areas1 "/" "repos" "a/b" = .ok "/srv/repos/a/b"
      ∧ isDirectChild "/srv/repos/a/b" "/srv/repos" = false
      ∧ computeFinalPath areas1 "/" "repos" "" = .ok "/srv/repos"
      ∧ isDirectChild "/srv/repos" "/srv/repos" = false := by
  decide

/-- C9 amended: for a known area whose base is a clean rooted path other than
"/", and every project value that is one single clean component (non-empty,
no separator, not "." or ".."), `computeFinalPath` succeeds and returns
exactly `base ++ "/" ++ project`, a direct child of the base. -/
theorem C9_single_component_is_direct_child
    (areas : AreaMap) (wd area project base : String)
    (hlook : areas.lookup area = some base)
    (hroot : isRooted base = true) (hbase : base ≠ "/") (hclean : clean base = base)
    (hp1 : project ≠ "") (hp2 : project.data.contains '/' = false)
    (hp3 : project ≠ ".") (hp4 : project ≠ "..") :
    computeFinalPath areas wd area project = .ok (base ++ "/" ++ project)
      ∧ isDirectChild (base ++ "/" ++ project) base = true := by
  have hbne : base ≠ "" := ne_empty_of_rooted hroot
  have hD := clean_append_single hroot hbase hclean hp1 hp2 hp3 hp4
  have hDdata := app_sep_data base project
  have hDroot : isRooted (base ++ "/" ++ project) = true := by
    obtain ⟨t, hbd⟩ := isRooted_data hroot
    simp only [isRooted, toList_eq_data, hDdata, hbd, decide_eq_true_eq]
    rfl
  have hjoin : filepathJoin base project = base ++ "/" ++ project := by
    unfold filepathJoin
    rw [if_pos hbne, hD]
  have habsD : filepathAbs wd (base ++ "/" ++ project) = base ++ "/" ++ project := by
    unfold filepathAbs
    rw [if_pos hDroot, hD]
  have habsB : filepathAbs wd base = base := by
    unfold filepathAbs
    rw [if_pos hroot, hclean]
  have hpre : strIsPre base (base ++ "/" ++ project) = true := by
    simp only [strIsPre, toList_eq_data, List.isPrefixOf_iff_prefix]
    exact ⟨'/' :: project.data, hDdata.symm⟩
  have hne : project.data ≠ [] := data_ne_nil_of_ne_empty hp1
  constructor
  · unfold computeFinalPath
    rw [hlook]
    dsimp only
    rw [hjoin, habsD, habsB, if_pos hpre]
  · have hsep : (base ++ "/").data = base.data ++ ['/'] := rfl
    have hassoc : base.data ++ '/' :: project.data = (base.data ++ ['/']) ++ project.data := by
      rw [List.append_assoc]
      rfl
    have hpre2 : strIsPre (base ++ "/") (base ++ "/" ++ project) = true := by
      simp only [strIsPre, toList_eq_data, List.isPrefixOf_iff_prefix, hDdata, hsep,
        hassoc]
      exact List.prefix_append _ _
    have hlen : base.data.length + 1 = (base.data ++ ['/']).length := by
      simp
    have hdrop : List.drop (base.data.length + 1) (base ++ "/" ++ project).data
        = project.data := by
      rw [hDdata, hassoc, hlen]
      exact List.drop_left _ _
    simp only [isDirectChild, toList_eq_data, hpre2, Bool.true_and, hdrop, hp2,
      Bool.not_false, Bool.and_true]
    cases pd : project.data with
    | nil => exact absurd pd hne
    | cons c t => rfl

/-- C9 witness: the amended claim applied to the spec's scenario-1 inputs —
area `repos` over base `/srv/repos` with the single-component project
`site`. -/
theorem C9_single_component_witness :
    computeFinalPath areas1 "/" "repos" "site" = .ok ("/srv/repos" ++ "/" ++ "site")
      ∧ isDirectChild ("/srv/repos" ++ "/" ++ "site") "/srv/repos" = true :=
  C9_single_component_is_direct_child areas1 "/" "repos" "site" "/srv/repos"
    (by decide) (by decide) (by decide) (by decide) (by decide) (by decide)
    (by decide) (by decide)

/-- C10 counterexample: the claim says every input with non-empty token,
owner and repo — whatever the `artifactID` — leads to the outbound request
being issued.  With `artifactID` a NUL character, the interpolated URL
contains an ASCII control character, so `http.NewRequest` fails locally
("creating request failed", main.go:182-185) and no outbound request is
issued at all (the effect trace is empty), although the failure is indeed
not a missing-credential one. -/
theorem C10_ctl_char_artifact_id_no_request :
    (downloadArtifact env1 fs1 "o" "r" "\x00" "tok" "site").1
        = .error ("creating request failed: " ++
            "parse URL: net/url: invalid control character in URL")
      ∧ (downloadArtifact env1 fs1 "o" "r" "\x00" "tok" "site").2.2 = []
      ∧ (downloadArtifact env1 fs1 "o" "r" "\x00" "tok" "site").1
          ≠ .error "missing GitHub token"
      ∧ (downloadArtifact env1 fs1 "o" "r" "\x00" "tok" "site").1
          ≠ .error "missing owner or repo" := by
  decide

/-- C10 amended: `downloadArtifact` performs no local validation of the
artifact identifier beyond handing the interpolated URL to
`http.NewRequest`: with non-empty token, owner and repo it never fails with
either missing-credential error, and whenever `http.NewRequest` accepts the
URL — in particular for an empty `artifactID` — the first observable effect
is the outbound authenticated request to the API URL with `artifactID`
interpolated verbatim.  (When the URL is one `http.NewRequest` rejects, the
fetch fails locally with "creating request failed" and no request is issued;
see the counterexample.) -/
theorem C10_artifact_id_not_validated (env : DeployEnv) (fs : FS)
    (owner repo artifactID token project : String)
    (ht : token ≠ "") (ho : owner ≠ "") (hr : repo ≠ "")
    (henr : env.newRequestErr
        ("https://api.github.com/repos/" ++ owner ++ "/" ++ repo ++
          "/actions/artifacts/" ++ artifactID ++ "/zip") = none) :
    (downloadArtifact env fs owner repo artifactID token project).2.2.head?
        = some (.httpRequest
            ("https://api.github.com/repos/" ++ owner ++ "/" ++ repo ++
              "/actions/artifacts/" ++ artifactID ++ "/zip")
            ("Bearer " ++ token))
      ∧ (downloadArtifact env fs owner repo artifactID token project).1
          ≠ .error "missing GitHub token"
      ∧ (downloadArtifact env fs owner repo artifactID token project).1
          ≠ .error "missing owner or repo" := by
  unfold downloadArtifact
  rw [if_neg ht, if_neg (show ¬(owner = "" ∨ repo = "") from fun h => h.elim ho hr)]
  dsimp only
  rw [henr]
  dsimp only
  cases henv : env.doResult with
  | error e =>
    refine ⟨rfl, ?_, ?_⟩
    · exact err_app_ne "http request failed: " e _ (by decide) (by decide)
    · exact err_app_ne "http request failed: " e _ (by decide) (by decide)
  | ok triple =>
    rcases triple with ⟨status, location, body⟩
    dsimp only
    by_cases hs : status ≠ 200 ∧ status ≠ 302
    · rw [if_pos hs]
      refine ⟨rfl, ?_, ?_⟩ <;> (dsimp only; decide)
    · rw [if_neg hs]
      by_cases h302 : status = 302
      · rw [if_pos h302]
        by_cases hloc : location = ""
        · rw [if_pos hloc]
          dsimp only
          rw [if_neg (fun hc => hc.2 hloc)]
          refine ⟨rfl, ?_, ?_⟩ <;> (dsimp only; decide)
        · rw [if_neg hloc]
          cases hred : env.redirectResult with
          | error e =>
            dsimp only
            rw [if_pos ⟨h302, hloc⟩]
            refine ⟨rfl, ?_, ?_⟩
            · exact err_app_ne "failed to download redirected artifact: " e _
                (by decide) (by decide)
            · exact err_app_ne "failed to download redirected artifact: " e _
                (by decide) (by decide)
          | ok b₂ =>
            dsimp only
            cases hc : fsCreate fs (filepathJoin env.tempDir (project ++ ".zip")) [] with
            | error e =>
              dsimp only
              refine ⟨rfl, ?_, ?_⟩
              · exact err_app_ne "failed to create file: " e _ (by decide) (by decide)
              · exact err_app_ne "failed to create file: " e _ (by decide) (by decide)
            | ok fs₁ =>
              dsimp only
              cases hcp : env.copyOk
              · rw [if_neg (by decide)]
                refine ⟨rfl, ?_, ?_⟩ <;> (dsimp only; decide)
              · rw [if_pos rfl]
                exact ⟨rfl, fun h => Except.noConfusion h, fun h => Except.noConfusion h⟩
      · rw [if_neg h302]
        dsimp only
        cases hc : fsCreate fs (filepathJoin env.tempDir (project ++ ".zip")) [] with
        | error e =>
          dsimp only
          refine ⟨rfl, ?_, ?_⟩
          · exact err_app_ne "failed to create file: " e _ (by decide) (by decide)
          · exact err_app_ne "failed to create file: " e _ (by decide) (by decide)
        | ok fs₁ =>
          dsimp only
          cases hcp : env.copyOk
          · rw [if_neg (by decide)]
            refine ⟨rfl, ?_, ?_⟩ <;> (dsimp only; decide)
          · rw [if_pos rfl]
            exact ⟨rfl, fun h => Except.noConfusion h, fun h => Except.noConfusion h⟩

/-- C10 witness: concrete inputs with an empty `artifact_id`, whose URL
`http.NewRequest` accepts: the request is still issued, with the empty
identifier spliced into the URL. -/
theorem C10_artifact_id_witness :
    (downloadArtifact env1 fs1 "o" "r" "" "tok" "site").2.2.head?
        = some (.httpRequest
            ("https://api.github.com/repos/" ++ "o" ++ "/" ++ "r" ++
              "/actions/artifacts/" ++ "" ++ "/zip")
            ("Bearer " ++ "tok"))
      ∧ (downloadArtifact env1 fs1 "o" "r" "" "tok" "site").1
          ≠ .error "missing GitHub token"
      ∧ (downloadArtifact env1 fs1 "o" "r" "" "tok" "site").1
          ≠ .error "missing owner or repo" :=
  C10_artifact_id_not_validated env1 fs1 "o" "r" "" "tok" "site"
    (by decide) (by decide) (by decide) (by decide)

/-- C7 counterexample: when the `io.Copy` inside `downloadArtifact` fails
after `os.Create` has succeeded, the handler returns the download error but
the scratch file `/tmp/site.zip` is left on disk and no remove of it was ever
performed — the deferred remove is only registered after a successful
download. -/
theorem C7_copy_failure_leaks_scratch_file :
    (deployHandler areas1 "/" env7 "POST" (some payload1) fs1).1
        = ⟨500, "failed to download artifact: failed to write file"⟩
      ∧ fsLookup fs1 "/tmp/site.zip" = none
      ∧ fsLookup (deployHandler areas1 "/" env7 "POST" (some payload1) fs1).2.1
          "/tmp/site.zip" = some (.file [])
      ∧ (deployHandler areas1 "/" env7 "POST" (some payload1) fs1).2.2.contains
          (.remove "/tmp/site.zip") = false := by
  decide

/-- C7 amended: on every exit path of the handler taken after
`downloadArtifact` has returned successfully — key read, verification,
directory, or extraction failure as well as success — the very last effect
before the handler returns is the deferred removal of the scratch artifact
file.  (When the download itself fails after creating the file, no removal
happens; see the counterexample.) -/
theorem C7_scratch_file_removed_after_download
    (areas : AreaMap) (wd : String) (env : DeployEnv) (p : Payload) (fs : FS)
    (dest af : String)
    (hres : computeFinalPath areas wd p.area p.project = .ok dest)
    (hdl : (downloadArtifact env fs p.owner p.repo p.artifactID p.githubToken p.project).1
        = .ok af) :
    (deployHandler areas wd env "POST" (some p) fs).2.2.getLast?
      = some (.remove af) := by
  unfold deployHandler
  rw [if_neg (by simp)]
  dsimp only
  rw [hres]
  dsimp only
  rcases hd : downloadArtifact env fs p.owner p.repo p.artifactID p.githubToken p.project
    with ⟨r, fs₁, ops₁⟩
  rw [hd] at hdl
  dsimp only at hdl
  subst hdl
  dsimp only
  split
  · exact List.getLast?_concat _
  · split
    · exact List.getLast?_concat _
    · split
      · exact List.getLast?_concat _
      · split
        · exact List.getLast?_concat _
        · exact List.getLast?_concat _

/-- C7 witness: the amended claim at the concrete scenario-1 run, where the
download succeeds and the handler later fails in extraction: the last
recorded effect is the removal of `/tmp/site.zip`. -/
theorem C7_scratch_file_removed_witness :
    (deployHandler areas1 "/" env1 "POST" (some payload1) fs1).2.2.getLast?
      = some (.remove "/tmp/site.zip") :=
  C7_scratch_file_removed_after_download areas1 "/" env1 payload1 fs1
    "/srv/repos/site" "/tmp/site.zip" (by decide) (by decide)

end VpsDeploy

